import Mathlib

/-!
Verification development for a small inventory-tracking backend.

The system records materials (code, quantity, rack/bin location), and two
mutating operations, entry and issue, each appending an audit Log and, in the
richer ("strict") route variant, a BinTransaction.  Two route implementations
exist in the source tree:

* the strict variant (`client/src/frontend/server/backend/routes.ts` with
  `backend/storage.ts`), which enforces a location check on issue and records
  bin transactions, and
* the simple variant (`server/routes.ts`), which skips both.

The store (a relational database accessed through single-statement queries) is
modelled as in-memory lists with the same observable semantics; JavaScript
string primitives used by the search logic (`split`, `replace`, `includes`,
`trim`, `toLowerCase`, SQL `LIKE`) are modelled over `List Char`.
-/

namespace Inventory

/-! ### JavaScript / SQL string primitives -/

/-- Model of `String.prototype.split` with a one-character separator (the code
only splits on `"-"` and `":"`).  Matches JS: `"".split(sep) = [""]`,
`"a-b".split("-") = ["a","b"]`, `"a-".split("-") = ["a",""]`. -/
def jsSplitChar (sep : Char) : List Char → List (List Char)
  | [] => [[]]
  | c :: cs =>
    if c = sep then [] :: jsSplitChar sep cs
    else
      match jsSplitChar sep cs with
      | [] => [[c]]
      | t :: ts => (c :: t) :: ts

/-- Model of `String.prototype.replace` with a plain-string pattern: replaces
only the first occurrence of `pat` by `rep` (JS semantics), or returns the
string unchanged when `pat` does not occur. -/
def jsReplaceFirst (pat rep : List Char) : List Char → List Char
  | [] => if pat.isPrefixOf ([] : List Char) then rep else []
  | c :: cs =>
    if pat.isPrefixOf (c :: cs) then rep ++ (c :: cs).drop pat.length
    else c :: jsReplaceFirst pat rep cs

/-- Model of `String.prototype.includes`: substring containment. -/
def jsIncludes (pat : List Char) : List Char → Bool
  | [] => pat.isPrefixOf ([] : List Char)
  | c :: cs => pat.isPrefixOf (c :: cs) || jsIncludes pat cs

/-- Whitespace for the purposes of `String.prototype.trim` (ASCII fragment). -/
def isJsSpace (c : Char) : Bool :=
  c == ' ' || c == '\t' || c == '\n' || c == '\r'

/-- Model of `String.prototype.trim`: strip whitespace from both ends. -/
def jsTrim (s : List Char) : List Char :=
  ((s.dropWhile isJsSpace).reverse.dropWhile isJsSpace).reverse

/-- ASCII lower-casing of one character, as both JS `toLowerCase` and SQL
`lower` act on the ASCII payloads this system stores. -/
def jsToLowerChar (c : Char) : Char :=
  if 'A' ≤ c ∧ c ≤ 'Z' then Char.ofNat (c.toNat + 32) else c

/-- ASCII upper-casing of one character (JS `toUpperCase`). -/
def jsToUpperChar (c : Char) : Char :=
  if 'a' ≤ c ∧ c ≤ 'z' then Char.ofNat (c.toNat - 32) else c

def jsToLower (s : List Char) : List Char := s.map jsToLowerChar

def jsToUpper (s : List Char) : List Char := s.map jsToUpperChar

def jsToLowerS (s : String) : String := ⟨jsToLower s.data⟩

def jsToUpperS (s : String) : String := ⟨jsToUpper s.data⟩

/-- SQL `LIKE` matching with `%` (any sequence) and `_` (any one character)
wildcards.  Escape sequences are not modelled; no pattern built by this code
relies on them. -/
def likeMatch : List Char → List Char → Bool
  | [], [] => true
  | [], _ :: _ => false
  | '%' :: ps, s =>
    likeMatch ps s ||
      (match s with
       | [] => false
       | _ :: s₁ => likeMatch ('%' :: ps) s₁)
  | '_' :: ps, s =>
    (match s with
     | [] => false
     | _ :: s₁ => likeMatch ps s₁)
  | p :: ps, s =>
    (match s with
     | [] => false
     | c :: s₁ => p == c && likeMatch ps s₁)
termination_by pat s => (s.length, pat.length)

/-! ### Data model

The table shapes follow the schema the storage layer reads and writes
(`shared/database/schema`); timestamps are modelled as a logical clock `Nat`
passed into every mutating call. -/

structure Material where
  code : String
  quantity : Int
  rack : String
  bin : String
  lastUpdated : Nat
deriving DecidableEq, Repr

structure Log where
  materialCode : String
  action : String
  quantity : Int
  rack : String
  bin : String
  balanceQty : Int
  enteredBy : Option String
  issuedBy : Option String
  userId : String
  timestamp : Nat
deriving DecidableEq, Repr

structure BinTransaction where
  materialCode : String
  binLocation : String
  receivedQty : Int
  issuedQty : Int
  balanceQty : Int
  personName : Option String
  createdAt : Nat
deriving DecidableEq, Repr

/-- The whole persistent store: the three tables. -/
structure StoreState where
  materials : List Material
  logs : List Log
  binTransactions : List BinTransaction
deriving DecidableEq, Repr

structure InsertMaterial where
  code : String
  quantity : Int
  rack : String
  bin : String
deriving DecidableEq, Repr

structure InsertLog where
  materialCode : String
  action : String
  quantity : Int
  rack : String
  bin : String
  enteredBy : Option String
  issuedBy : Option String
  userId : String
deriving DecidableEq, Repr

structure InsertBinTransaction where
  materialCode : String
  binLocation : String
  receivedQty : Int
  issuedQty : Int
  balanceQty : Int
  personName : Option String
deriving DecidableEq, Repr

/-- Partial update passed to `updateMaterial` (`Partial<InsertMaterial>`
without the code, which the handlers never change). -/
structure MaterialUpdate where
  quantity : Option Int := none
  rack : Option String := none
  bin : Option String := none
deriving DecidableEq, Repr

/-! ### Storage layer (`DatabaseStorage`) -/

/-- `getMaterialByCode`: point lookup by primary key (first matching row). -/
def getMaterialByCode (st : StoreState) (code : String) : Option Material :=
  st.materials.find? (fun m => m.code == code)

/-- `createMaterial`: insert a row, returning it. -/
def createMaterial (st : StoreState) (im : InsertMaterial) (now : Nat) :
    Material × StoreState :=
  let m : Material :=
    { code := im.code, quantity := im.quantity, rack := im.rack, bin := im.bin
      lastUpdated := now }
  (m, { st with materials := st.materials ++ [m] })

/-- Apply a `MaterialUpdate` to one row, stamping `lastUpdated` (the `SET`
clause of `updateMaterial`). -/
def applyUpdate (u : MaterialUpdate) (now : Nat) (m : Material) : Material :=
  { m with
    quantity := u.quantity.getD m.quantity
    rack := u.rack.getD m.rack
    bin := u.bin.getD m.bin
    lastUpdated := now }

/-- `updateMaterial`: update all rows with the given code, returning the first
updated row (`returning()[0]`; `none` when no row matched, modelling the
`undefined` JS would produce). -/
def updateMaterial (st : StoreState) (code : String) (u : MaterialUpdate)
    (now : Nat) : Option Material × StoreState :=
  let ms := st.materials.map (fun m => if m.code == code then applyUpdate u now m else m)
  (ms.find? (fun m => m.code == code), { st with materials := ms })

/-- `deleteMaterial`: remove all rows with the given code. -/
def deleteMaterial (st : StoreState) (code : String) : StoreState :=
  { st with materials := st.materials.filter (fun m => m.code != code) }

/-- `resetInventory`: `UPDATE materials SET quantity = 0, lastUpdated = now`
with no `WHERE` clause — every row is updated, none deleted. -/
def resetInventory (st : StoreState) (now : Nat) : StoreState :=
  { st with materials :=
      st.materials.map (fun m => { m with quantity := 0, lastUpdated := now }) }

/-- `createLog`: snapshot the material's current quantity as `balanceQty`
(`0` when the material row is absent), then append the log. -/
def createLog (st : StoreState) (il : InsertLog) (now : Nat) : Log × StoreState :=
  let balanceQty : Int :=
    match getMaterialByCode st il.materialCode with
    | some m => m.quantity
    | none => 0
  let log : Log :=
    { materialCode := il.materialCode, action := il.action
      quantity := il.quantity, rack := il.rack, bin := il.bin
      balanceQty := balanceQty, enteredBy := il.enteredBy
      issuedBy := il.issuedBy, userId := il.userId, timestamp := now }
  (log, { st with logs := st.logs ++ [log] })

/-- `clearLogs`: delete all log rows. -/
def clearLogs (st : StoreState) : StoreState :=
  { st with logs := [] }

/-- `createBinTransaction`: append a bin-transaction row. -/
def createBinTransaction (st : StoreState) (it : InsertBinTransaction)
    (now : Nat) : BinTransaction × StoreState :=
  let t : BinTransaction :=
    { materialCode := it.materialCode, binLocation := it.binLocation
      receivedQty := it.receivedQty, issuedQty := it.issuedQty
      balanceQty := it.balanceQty, personName := it.personName, createdAt := now }
  (t, { st with binTransactions := st.binTransactions ++ [t] })

/-- Comparison used by `ORDER BY lastUpdated DESC`: newest first. -/
def newestFirst (a b : Material) : Prop :=
  b.lastUpdated ≤ a.lastUpdated

instance : DecidableRel newestFirst :=
  fun a b => Nat.decLe b.lastUpdated a.lastUpdated

instance : IsTotal Material newestFirst :=
  ⟨fun a b => Nat.le_total b.lastUpdated a.lastUpdated⟩

instance : IsTrans Material newestFirst :=
  ⟨fun _ _ _ hab hbc => Nat.le_trans hbc hab⟩

/-- `ORDER BY lastUpdated DESC`: the rows sorted newest first. -/
def sortByLastUpdatedDesc (l : List Material) : List Material :=
  l.insertionSort newestFirst

/-- `getMaterials(search?)`.  `none` in the result models a thrown exception:
when the term contains both `rack:` and `bin:` markers but splitting on `-`
yields fewer than two parts, the code dereferences `parts[1]` (which is
`undefined`) and throws a `TypeError`.  An empty search string is falsy in JS
and behaves like no search term. -/
def getMaterials (search : Option String) (st : StoreState) :
    Option (List Material) :=
  match search with
  | none => some (sortByLastUpdatedDesc st.materials)
  | some s =>
    if s = "" then some (sortByLastUpdatedDesc st.materials)
    else if jsIncludes "rack:".data s.data && jsIncludes "bin:".data s.data then
      match jsSplitChar '-' s.data with
      | p0 :: p1 :: _ =>
        let rackVal := jsToLower (jsTrim (jsReplaceFirst "rack:".data [] p0))
        let binVal := jsToLower (jsTrim (jsReplaceFirst "bin:".data [] p1))
        some (sortByLastUpdatedDesc (st.materials.filter (fun m =>
          jsToLower m.rack.data == rackVal && jsToLower m.bin.data == binVal)))
      | _ => none
    else if "rack:".data.isPrefixOf s.data then
      match jsSplitChar ':' s.data with
      | _ :: p1 :: _ =>
        let rackVal := jsToLower (jsTrim p1)
        some (sortByLastUpdatedDesc (st.materials.filter (fun m =>
          likeMatch (rackVal ++ ['%']) (jsToLower m.rack.data))))
      | _ => none
    else
      let pat := jsToLower ('%' :: s.data ++ ['%'])
      some (st.materials.filter (fun m =>
        likeMatch pat (jsToLower m.code.data) ||
        likeMatch pat (jsToLower m.rack.data) ||
        likeMatch pat (jsToLower m.bin.data) ||
        likeMatch pat (jsToLower (m.rack.data ++ '-' :: m.bin.data))))

/-! ### Route handlers (the inventory-service logic) -/

structure EntryInput where
  materialCode : String
  quantity : Int
  rack : String
  bin : String
  enteredBy : Option String
deriving DecidableEq, Repr

structure IssueInput where
  materialCode : String
  quantity : Int
  rack : String
  bin : String
  issuedBy : Option String
deriving DecidableEq, Repr

inductive EntryResult where
  | created (material : Material)
  | updated (material : Material)
  | fault
deriving DecidableEq, Repr

inductive IssueResult where
  | ok (material : Material)
  | notFound
  | locationMismatch
  | insufficientQuantity
  | fault
deriving DecidableEq, Repr

/-- HTTP status the entry handlers respond with (`existing ? 200 : 201`). -/
def entryHttpStatus : EntryResult → Nat
  | .created _ => 201
  | .updated _ => 200
  | .fault => 500

/-- HTTP status the issue handlers respond with. -/
def issueHttpStatus : IssueResult → Nat
  | .ok _ => 200
  | .notFound => 404
  | .locationMismatch => 400
  | .insufficientQuantity => 400
  | .fault => 500

/-- Entry handler of the strict variant
(`client/src/frontend/server/backend/routes.ts`): create-or-add, then log,
then record a bin transaction with `receivedQty` equal to the input quantity
and `balanceQty` equal to the post-mutation quantity.  `fault` models the
crash JS would hit if `updateMaterial` returned no row. -/
def entryStrict (st : StoreState) (inp : EntryInput) (now : Nat) :
    EntryResult × StoreState :=
  match getMaterialByCode st inp.materialCode with
  | some existing =>
    match updateMaterial st inp.materialCode
        { quantity := some (existing.quantity + inp.quantity)
          rack := some inp.rack, bin := some inp.bin } now with
    | (some material, st₁) =>
      let (_, st₂) := createLog st₁
        { materialCode := inp.materialCode, action := "entry"
          quantity := inp.quantity, rack := inp.rack, bin := inp.bin
          enteredBy := inp.enteredBy, issuedBy := none, userId := "system" } now
      let (_, st₃) := createBinTransaction st₂
        { materialCode := inp.materialCode
          binLocation := inp.rack ++ "-" ++ inp.bin
          receivedQty := inp.quantity, issuedQty := 0
          balanceQty := material.quantity, personName := inp.enteredBy } now
      (.updated material, st₃)
    | (none, st₁) => (.fault, st₁)
  | none =>
    let (material, st₁) := createMaterial st
      { code := inp.materialCode, quantity := inp.quantity
        rack := inp.rack, bin := inp.bin } now
    let (_, st₂) := createLog st₁
      { materialCode := inp.materialCode, action := "entry"
        quantity := inp.quantity, rack := inp.rack, bin := inp.bin
        enteredBy := inp.enteredBy, issuedBy := none, userId := "system" } now
    let (_, st₃) := createBinTransaction st₂
      { materialCode := inp.materialCode
        binLocation := inp.rack ++ "-" ++ inp.bin
        receivedQty := inp.quantity, issuedQty := 0
        balanceQty := material.quantity, personName := inp.enteredBy } now
    (.created material, st₃)

/-- Issue handler of the strict variant: not-found check, then the location
check — rack compared after `toUpperCase` on both sides, bin compared by plain
string equality — then the quantity check, and only then the mutation, log and
bin transaction. -/
def issueStrict (st : StoreState) (inp : IssueInput) (now : Nat) :
    IssueResult × StoreState :=
  match getMaterialByCode st inp.materialCode with
  | none => (.notFound, st)
  | some existing =>
    if jsToUpperS existing.rack ≠ jsToUpperS inp.rack ∨ existing.bin ≠ inp.bin then
      (.locationMismatch, st)
    else if existing.quantity < inp.quantity then
      (.insufficientQuantity, st)
    else
      match updateMaterial st inp.materialCode
          { quantity := some (existing.quantity - inp.quantity) } now with
      | (some material, st₁) =>
        let (_, st₂) := createLog st₁
          { materialCode := inp.materialCode, action := "issue"
            quantity := inp.quantity, rack := inp.rack, bin := inp.bin
            enteredBy := none, issuedBy := inp.issuedBy, userId := "system" } now
        let (_, st₃) := createBinTransaction st₂
          { materialCode := inp.materialCode
            binLocation := inp.rack ++ "-" ++ inp.bin
            receivedQty := 0, issuedQty := inp.quantity
            balanceQty := material.quantity, personName := inp.issuedBy } now
        (.ok material, st₃)
      | (none, st₁) => (.fault, st₁)

/-- Entry handler of the simple variant (`server/routes.ts`): identical
material mutation, log without `enteredBy`, and no bin transaction. -/
def entrySimple (st : StoreState) (inp : EntryInput) (now : Nat) :
    EntryResult × StoreState :=
  match getMaterialByCode st inp.materialCode with
  | some existing =>
    match updateMaterial st inp.materialCode
        { quantity := some (existing.quantity + inp.quantity)
          rack := some inp.rack, bin := some inp.bin } now with
    | (some material, st₁) =>
      let (_, st₂) := createLog st₁
        { materialCode := inp.materialCode, action := "entry"
          quantity := inp.quantity, rack := inp.rack, bin := inp.bin
          enteredBy := none, issuedBy := none, userId := "system" } now
      (.updated material, st₂)
    | (none, st₁) => (.fault, st₁)
  | none =>
    let (material, st₁) := createMaterial st
      { code := inp.materialCode, quantity := inp.quantity
        rack := inp.rack, bin := inp.bin } now
    let (_, st₂) := createLog st₁
      { materialCode := inp.materialCode, action := "entry"
        quantity := inp.quantity, rack := inp.rack, bin := inp.bin
        enteredBy := none, issuedBy := none, userId := "system" } now
    (.created material, st₂)

/-- Issue handler of the simple variant: not-found and quantity checks only —
no location check, and no bin transaction is ever recorded. -/
def issueSimple (st : StoreState) (inp : IssueInput) (now : Nat) :
    IssueResult × StoreState :=
  match getMaterialByCode st inp.materialCode with
  | none => (.notFound, st)
  | some existing =>
    if existing.quantity < inp.quantity then
      (.insufficientQuantity, st)
    else
      match updateMaterial st inp.materialCode
          { quantity := some (existing.quantity - inp.quantity) } now with
      | (some material, st₁) =>
        let (_, st₂) := createLog st₁
          { materialCode := inp.materialCode, action := "issue"
            quantity := inp.quantity, rack := inp.rack, bin := inp.bin
            enteredBy := none, issuedBy := inp.issuedBy, userId := "system" } now
        (.ok material, st₂)
      | (none, st₁) => (.fault, st₁)

/-! ### Helper lemmas about the storage layer -/

theorem find?_map_matching (l : List Material) (code : String) (g : Material → Material)
    (hg : ∀ m, (g m).code = m.code) :
    (l.map (fun m => if m.code == code then g m else m)).find? (fun m => m.code == code)
      = (l.find? (fun m => m.code == code)).map g := by
  induction l with
  | nil => rfl
  | cons a l ih =>
    by_cases h : (a.code == code) = true
    · have hga : ((g a).code == code) = true := by rw [hg a]; exact h
      simp only [List.map_cons, List.find?_cons, hga, h, eq_self_iff_true, if_true,
        Option.map_some']
    · have h' : (a.code == code) = false := by simpa using h
      have hga : ((g a).code == code) = false := by rw [hg a]; exact h'
      simp only [List.map_cons, List.find?_cons, h', hga, Bool.false_eq_true, if_false, ih]

theorem updateMaterial_fst (st : StoreState) (code : String) (u : MaterialUpdate)
    (now : Nat) :
    (updateMaterial st code u now).1 = (getMaterialByCode st code).map (applyUpdate u now) :=
  find?_map_matching st.materials code (applyUpdate u now) (fun _ => rfl)

theorem getMaterialByCode_updateMaterial (st : StoreState) (code : String)
    (u : MaterialUpdate) (now : Nat) :
    getMaterialByCode (updateMaterial st code u now).2 code
      = (getMaterialByCode st code).map (applyUpdate u now) :=
  find?_map_matching st.materials code (applyUpdate u now) (fun _ => rfl)

theorem updateMaterial_eq (st : StoreState) (code : String) (u : MaterialUpdate)
    (now : Nat) (ex : Material) (hex : getMaterialByCode st code = some ex) :
    updateMaterial st code u now =
      (some (applyUpdate u now ex),
       { st with materials :=
           st.materials.map (fun m => if m.code == code then applyUpdate u now m else m) }) := by
  refine Prod.ext ?_ rfl
  rw [updateMaterial_fst, hex]
  rfl

/-! ### Full-state characterization of the four handlers -/

/-- The strict entry handler on an existing material: add the quantity,
overwrite the location, log with post-mutation balance, record the bin
transaction, signal `updated`. -/
theorem entryStrict_existing (st : StoreState) (inp : EntryInput) (now : Nat)
    (ex : Material) (hex : getMaterialByCode st inp.materialCode = some ex) :
    entryStrict st inp now =
      (.updated ⟨ex.code, ex.quantity + inp.quantity, inp.rack, inp.bin, now⟩,
       { materials := st.materials.map (fun m =>
           if m.code == inp.materialCode then
             applyUpdate { quantity := some (ex.quantity + inp.quantity)
                           rack := some inp.rack, bin := some inp.bin } now m
           else m)
         logs := st.logs ++
           [{ materialCode := inp.materialCode, action := "entry"
              quantity := inp.quantity, rack := inp.rack, bin := inp.bin
              balanceQty := ex.quantity + inp.quantity
              enteredBy := inp.enteredBy, issuedBy := none
              userId := "system", timestamp := now }]
         binTransactions := st.binTransactions ++
           [{ materialCode := inp.materialCode
              binLocation := inp.rack ++ "-" ++ inp.bin
              receivedQty := inp.quantity, issuedQty := 0
              balanceQty := ex.quantity + inp.quantity
              personName := inp.enteredBy, createdAt := now }] }) := by
  have hu := updateMaterial_eq st inp.materialCode
    { quantity := some (ex.quantity + inp.quantity)
      rack := some inp.rack, bin := some inp.bin } now ex hex
  have hb : getMaterialByCode
      { st with materials := st.materials.map (fun m =>
          if m.code == inp.materialCode then
            applyUpdate { quantity := some (ex.quantity + inp.quantity)
                          rack := some inp.rack, bin := some inp.bin } now m
          else m) } inp.materialCode
      = some (applyUpdate { quantity := some (ex.quantity + inp.quantity)
                            rack := some inp.rack, bin := some inp.bin } now ex) := by
    have := getMaterialByCode_updateMaterial st inp.materialCode
      { quantity := some (ex.quantity + inp.quantity)
        rack := some inp.rack, bin := some inp.bin } now
    rw [hex] at this
    exact this
  simp only [entryStrict, hex, hu, createLog, createBinTransaction, hb]
  rfl

/-- The strict entry handler on a fresh code: create the row, log with the
created quantity as balance, record the bin transaction, signal `created`. -/
theorem entryStrict_fresh (st : StoreState) (inp : EntryInput) (now : Nat)
    (hex : getMaterialByCode st inp.materialCode = none) :
    entryStrict st inp now =
      (.created ⟨inp.materialCode, inp.quantity, inp.rack, inp.bin, now⟩,
       { materials := st.materials ++ [⟨inp.materialCode, inp.quantity, inp.rack, inp.bin, now⟩]
         logs := st.logs ++
           [{ materialCode := inp.materialCode, action := "entry"
              quantity := inp.quantity, rack := inp.rack, bin := inp.bin
              balanceQty := inp.quantity
              enteredBy := inp.enteredBy, issuedBy := none
              userId := "system", timestamp := now }]
         binTransactions := st.binTransactions ++
           [{ materialCode := inp.materialCode
              binLocation := inp.rack ++ "-" ++ inp.bin
              receivedQty := inp.quantity, issuedQty := 0
              balanceQty := inp.quantity
              personName := inp.enteredBy, createdAt := now }] }) := by
  have hb : getMaterialByCode
      { st with materials :=
          st.materials ++ [⟨inp.materialCode, inp.quantity, inp.rack, inp.bin, now⟩] }
      inp.materialCode
      = some ⟨inp.materialCode, inp.quantity, inp.rack, inp.bin, now⟩ := by
    unfold getMaterialByCode at hex ⊢
    rw [List.find?_append, hex]
    simp
  simp only [entryStrict, hex, createMaterial, createLog, createBinTransaction, hb]

/-- The simple entry handler on an existing material: same material mutation
as the strict one, a log without `enteredBy`, and no bin transaction. -/
theorem entrySimple_existing (st : StoreState) (inp : EntryInput) (now : Nat)
    (ex : Material) (hex : getMaterialByCode st inp.materialCode = some ex) :
    entrySimple st inp now =
      (.updated ⟨ex.code, ex.quantity + inp.quantity, inp.rack, inp.bin, now⟩,
       { materials := st.materials.map (fun m =>
           if m.code == inp.materialCode then
             applyUpdate { quantity := some (ex.quantity + inp.quantity)
                           rack := some inp.rack, bin := some inp.bin } now m
           else m)
         logs := st.logs ++
           [{ materialCode := inp.materialCode, action := "entry"
              quantity := inp.quantity, rack := inp.rack, bin := inp.bin
              balanceQty := ex.quantity + inp.quantity
              enteredBy := none, issuedBy := none
              userId := "system", timestamp := now }]
         binTransactions := st.binTransactions }) := by
  have hu := updateMaterial_eq st inp.materialCode
    { quantity := some (ex.quantity + inp.quantity)
      rack := some inp.rack, bin := some inp.bin } now ex hex
  have hb : getMaterialByCode
      { st with materials := st.materials.map (fun m =>
          if m.code == inp.materialCode then
            applyUpdate { quantity := some (ex.quantity + inp.quantity)
                          rack := some inp.rack, bin := some inp.bin } now m
          else m) } inp.materialCode
      = some (applyUpdate { quantity := some (ex.quantity + inp.quantity)
                            rack := some inp.rack, bin := some inp.bin } now ex) := by
    have := getMaterialByCode_updateMaterial st inp.materialCode
      { quantity := some (ex.quantity + inp.quantity)
        rack := some inp.rack, bin := some inp.bin } now
    rw [hex] at this
    exact this
  simp only [entrySimple, hex, hu, createLog, hb]
  rfl

/-- The simple entry handler on a fresh code. -/
theorem entrySimple_fresh (st : StoreState) (inp : EntryInput) (now : Nat)
    (hex : getMaterialByCode st inp.materialCode = none) :
    entrySimple st inp now =
      (.created ⟨inp.materialCode, inp.quantity, inp.rack, inp.bin, now⟩,
       { materials := st.materials ++ [⟨inp.materialCode, inp.quantity, inp.rack, inp.bin, now⟩]
         logs := st.logs ++
           [{ materialCode := inp.materialCode, action := "entry"
              quantity := inp.quantity, rack := inp.rack, bin := inp.bin
              balanceQty := inp.quantity
              enteredBy := none, issuedBy := none
              userId := "system", timestamp := now }]
         binTransactions := st.binTransactions }) := by
  have hb : getMaterialByCode
      { st with materials :=
          st.materials ++ [⟨inp.materialCode, inp.quantity, inp.rack, inp.bin, now⟩] }
      inp.materialCode
      = some ⟨inp.materialCode, inp.quantity, inp.rack, inp.bin, now⟩ := by
    unfold getMaterialByCode at hex ⊢
    rw [List.find?_append, hex]
    simp
  simp only [entrySimple, hex, createMaterial, createLog, hb]

/-- The strict issue handler when the material is absent. -/
theorem issueStrict_notFound (st : StoreState) (inp : IssueInput) (now : Nat)
    (hex : getMaterialByCode st inp.materialCode = none) :
    issueStrict st inp now = (.notFound, st) := by
  simp only [issueStrict, hex]

/-- The strict issue handler when the location check fails (rack differing
after upper-casing, or bin differing as a plain string). -/
theorem issueStrict_mismatch (st : StoreState) (inp : IssueInput) (now : Nat)
    (ex : Material) (hex : getMaterialByCode st inp.materialCode = some ex)
    (hloc : jsToUpperS ex.rack ≠ jsToUpperS inp.rack ∨ ex.bin ≠ inp.bin) :
    issueStrict st inp now = (.locationMismatch, st) := by
  simp only [issueStrict, hex, if_pos hloc]

/-- The strict issue handler when the location matches but the quantity does
not suffice. -/
theorem issueStrict_insufficient (st : StoreState) (inp : IssueInput) (now : Nat)
    (ex : Material) (hex : getMaterialByCode st inp.materialCode = some ex)
    (hrack : jsToUpperS ex.rack = jsToUpperS inp.rack) (hbin : ex.bin = inp.bin)
    (hq : ex.quantity < inp.quantity) :
    issueStrict st inp now = (.insufficientQuantity, st) := by
  have hcond : ¬(jsToUpperS ex.rack ≠ jsToUpperS inp.rack ∨ ex.bin ≠ inp.bin) := by
    simp [hrack, hbin]
  simp only [issueStrict, hex, if_neg hcond, if_pos hq]

/-- The strict issue handler on success: subtract the quantity (leaving rack
and bin as stored), log with post-mutation balance, append a bin
transaction. -/
theorem issueStrict_success (st : StoreState) (inp : IssueInput) (now : Nat)
    (ex : Material) (hex : getMaterialByCode st inp.materialCode = some ex)
    (hrack : jsToUpperS ex.rack = jsToUpperS inp.rack) (hbin : ex.bin = inp.bin)
    (hq : ¬ ex.quantity < inp.quantity) :
    issueStrict st inp now =
      (.ok ⟨ex.code, ex.quantity - inp.quantity, ex.rack, ex.bin, now⟩,
       { materials := st.materials.map (fun m =>
           if m.code == inp.materialCode then
             applyUpdate { quantity := some (ex.quantity - inp.quantity) } now m
           else m)
         logs := st.logs ++
           [{ materialCode := inp.materialCode, action := "issue"
              quantity := inp.quantity, rack := inp.rack, bin := inp.bin
              balanceQty := ex.quantity - inp.quantity
              enteredBy := none, issuedBy := inp.issuedBy
              userId := "system", timestamp := now }]
         binTransactions := st.binTransactions ++
           [{ materialCode := inp.materialCode
              binLocation := inp.rack ++ "-" ++ inp.bin
              receivedQty := 0, issuedQty := inp.quantity
              balanceQty := ex.quantity - inp.quantity
              personName := inp.issuedBy, createdAt := now }] }) := by
  have hcond : ¬(jsToUpperS ex.rack ≠ jsToUpperS inp.rack ∨ ex.bin ≠ inp.bin) := by
    simp [hrack, hbin]
  have hu := updateMaterial_eq st inp.materialCode
    { quantity := some (ex.quantity - inp.quantity) } now ex hex
  have hb : getMaterialByCode
      { st with materials := st.materials.map (fun m =>
          if m.code == inp.materialCode then
            applyUpdate { quantity := some (ex.quantity - inp.quantity) } now m
          else m) } inp.materialCode
      = some (applyUpdate { quantity := some (ex.quantity - inp.quantity) } now ex) := by
    have := getMaterialByCode_updateMaterial st inp.materialCode
      { quantity := some (ex.quantity - inp.quantity) } now
    rw [hex] at this
    exact this
  simp only [issueStrict, hex, if_neg hcond, if_neg hq, hu, createLog,
    createBinTransaction, hb]
  rfl

/-- The simple issue handler when the material is absent. -/
theorem issueSimple_notFound (st : StoreState) (inp : IssueInput) (now : Nat)
    (hex : getMaterialByCode st inp.materialCode = none) :
    issueSimple st inp now = (.notFound, st) := by
  simp only [issueSimple, hex]

/-- The simple issue handler when the quantity does not suffice (there is no
location check in this variant). -/
theorem issueSimple_insufficient (st : StoreState) (inp : IssueInput) (now : Nat)
    (ex : Material) (hex : getMaterialByCode st inp.materialCode = some ex)
    (hq : ex.quantity < inp.quantity) :
    issueSimple st inp now = (.insufficientQuantity, st) := by
  simp only [issueSimple, hex, if_pos hq]

/-- The simple issue handler on success: subtract the quantity, log, no bin
transaction; the supplied rack/bin are not checked against the stored ones. -/
theorem issueSimple_success (st : StoreState) (inp : IssueInput) (now : Nat)
    (ex : Material) (hex : getMaterialByCode st inp.materialCode = some ex)
    (hq : ¬ ex.quantity < inp.quantity) :
    issueSimple st inp now =
      (.ok ⟨ex.code, ex.quantity - inp.quantity, ex.rack, ex.bin, now⟩,
       { materials := st.materials.map (fun m =>
           if m.code == inp.materialCode then
             applyUpdate { quantity := some (ex.quantity - inp.quantity) } now m
           else m)
         logs := st.logs ++
           [{ materialCode := inp.materialCode, action := "issue"
              quantity := inp.quantity, rack := inp.rack, bin := inp.bin
              balanceQty := ex.quantity - inp.quantity
              enteredBy := none, issuedBy := inp.issuedBy
              userId := "system", timestamp := now }]
         binTransactions := st.binTransactions }) := by
  have hu := updateMaterial_eq st inp.materialCode
    { quantity := some (ex.quantity - inp.quantity) } now ex hex
  have hb : getMaterialByCode
      { st with materials := st.materials.map (fun m =>
          if m.code == inp.materialCode then
            applyUpdate { quantity := some (ex.quantity - inp.quantity) } now m
          else m) } inp.materialCode
      = some (applyUpdate { quantity := some (ex.quantity - inp.quantity) } now ex) := by
    have := getMaterialByCode_updateMaterial st inp.materialCode
      { quantity := some (ex.quantity - inp.quantity) } now
    rw [hex] at this
    exact this
  simp only [issueSimple, hex, if_neg hq, hu, createLog, hb]
  rfl

/-- Lookup in a state whose materials are the update-mapped rows: returns the
updated first match. -/
theorem getMaterialByCode_mapped (st : StoreState) (code : String)
    (u : MaterialUpdate) (now : Nat) (L : List Log) (B : List BinTransaction)
    (ex : Material) (hex : getMaterialByCode st code = some ex) :
    getMaterialByCode
      ⟨st.materials.map (fun m => if m.code == code then applyUpdate u now m else m), L, B⟩
      code = some (applyUpdate u now ex) := by
  show (st.materials.map _).find? _ = _
  rw [find?_map_matching st.materials code (applyUpdate u now) (fun _ => rfl)]
  rw [show st.materials.find? (fun m => m.code == code) = some ex from hex]
  rfl

/-- Lookup in a state whose materials got a fresh row appended. -/
theorem getMaterialByCode_snoc_fresh (ms : List Material) (L : List Log)
    (B : List BinTransaction) (m : Material)
    (h : ms.find? (fun x => x.code == m.code) = none) :
    getMaterialByCode ⟨ms ++ [m], L, B⟩ m.code = some m := by
  show (ms ++ [m]).find? _ = _
  rw [List.find?_append, h]
  simp

/-! ### Claim theorems -/

/-- C8: `resetInventory` sets every Material's quantity to 0 and stamps every
Material's `lastUpdated`, leaves each row's code, rack and bin unchanged,
leaves the Log and BinTransaction tables untouched, and deletes no row. -/
theorem resetInventory_frame (st : StoreState) (now : Nat) :
    (resetInventory st now).materials
      = st.materials.map (fun m => { m with quantity := 0, lastUpdated := now }) ∧
    (resetInventory st now).logs = st.logs ∧
    (resetInventory st now).binTransactions = st.binTransactions ∧
    (resetInventory st now).materials.length = st.materials.length ∧
    ∀ m : Material,
      ({ m with quantity := 0, lastUpdated := now } : Material).code = m.code ∧
      ({ m with quantity := 0, lastUpdated := now } : Material).rack = m.rack ∧
      ({ m with quantity := 0, lastUpdated := now } : Material).bin = m.bin ∧
      ({ m with quantity := 0, lastUpdated := now } : Material).quantity = 0 ∧
      ({ m with quantity := 0, lastUpdated := now } : Material).lastUpdated = now := by
  refine ⟨rfl, rfl, rfl, ?_, fun m => ⟨rfl, rfl, rfl, rfl, rfl⟩⟩
  simp [resetInventory]

/-- C10: when `createLog` is invoked for a `materialCode` with no Material row
at log-creation time, the created Log's `balanceQty` is 0 and the log is still
appended normally. -/
theorem createLog_missing_material_zero_balance (st : StoreState) (il : InsertLog)
    (now : Nat) (h : getMaterialByCode st il.materialCode = none) :
    (createLog st il now).1.balanceQty = 0 ∧
    (createLog st il now).2.logs = st.logs ++ [(createLog st il now).1] := by
  constructor
  · show (let balanceQty : Int := match getMaterialByCode st il.materialCode with
          | some m => m.quantity
          | none => 0
          ; _) = _
    simp only [createLog, h]
  · rfl

/-- Witness for C10 at a concrete store and log. -/
theorem createLog_missing_material_zero_balance_witness :
    getMaterialByCode ⟨[⟨"TRIM-002", 5, "B2", "15", 0⟩], [], []⟩ "GONE" = none ∧
    (createLog ⟨[⟨"TRIM-002", 5, "B2", "15", 0⟩], [], []⟩
      ⟨"GONE", "issue", 3, "A1", "01", none, some "p", "system"⟩ 7).1.balanceQty = 0 :=
  ⟨by decide,
   (createLog_missing_material_zero_balance ⟨[⟨"TRIM-002", 5, "B2", "15", 0⟩], [], []⟩
      ⟨"GONE", "issue", 3, "A1", "01", none, some "p", "system"⟩ 7 (by decide)).1⟩

/-- C1 is refuted on the code: bin is compared case-sensitively.  A material
stored at rack `A1`, bin `b1` and an issue supplying rack `a1`, bin `B1`
match case-insensitively on both components, yet the strict issue handler
reports LocationMismatch. -/
theorem issueStrict_location_claim_counterexample :
    getMaterialByCode ⟨[⟨"TRIM-001", 10, "A1", "b1", 0⟩], [], []⟩ "TRIM-001"
      = some ⟨"TRIM-001", 10, "A1", "b1", 0⟩ ∧
    jsToLowerS "A1" = jsToLowerS "a1" ∧
    jsToLowerS "b1" = jsToLowerS "B1" ∧
    (5 : Int) ≤ 10 ∧
    (issueStrict ⟨[⟨"TRIM-001", 10, "A1", "b1", 0⟩], [], []⟩
       ⟨"TRIM-001", 5, "a1", "B1", none⟩ 1).1 = .locationMismatch := by
  decide

/-- C1 (amended): on an existing material the strict issue handler reports
LocationMismatch exactly when the supplied rack differs case-insensitively
from the recorded rack or the supplied bin differs case-sensitively from the
recorded bin; on LocationMismatch the store is not mutated. -/
theorem issueStrict_location_check_amended (st : StoreState) (inp : IssueInput)
    (now : Nat) (ex : Material)
    (hex : getMaterialByCode st inp.materialCode = some ex) :
    ((issueStrict st inp now).1 = .locationMismatch ↔
      (jsToUpperS ex.rack ≠ jsToUpperS inp.rack ∨ ex.bin ≠ inp.bin)) ∧
    ((issueStrict st inp now).1 = .locationMismatch →
      (issueStrict st inp now).2 = st) := by
  by_cases hloc : jsToUpperS ex.rack ≠ jsToUpperS inp.rack ∨ ex.bin ≠ inp.bin
  · rw [issueStrict_mismatch st inp now ex hex hloc]
    exact ⟨⟨fun _ => hloc, fun _ => rfl⟩, fun _ => rfl⟩
  · push_neg at hloc
    obtain ⟨hrack, hbin⟩ := hloc
    by_cases hq : ex.quantity < inp.quantity
    · rw [issueStrict_insufficient st inp now ex hex hrack hbin hq]
      refine ⟨?_, by simp⟩
      simp [hrack, hbin]
    · rw [issueStrict_success st inp now ex hex hrack hbin hq]
      refine ⟨?_, by simp⟩
      simp [hrack, hbin]

/-- Witness for the amended C1: a matching location issue raises no
LocationMismatch, a bin-case-mismatching one does. -/
theorem issueStrict_location_check_amended_witness :
    getMaterialByCode ⟨[⟨"TRIM-001", 10, "A1", "b1", 0⟩], [], []⟩ "TRIM-001"
      = some ⟨"TRIM-001", 10, "A1", "b1", 0⟩ ∧
    ((issueStrict ⟨[⟨"TRIM-001", 10, "A1", "b1", 0⟩], [], []⟩
        ⟨"TRIM-001", 5, "a1", "B1", none⟩ 1).1 = .locationMismatch ↔
      (jsToUpperS "A1" ≠ jsToUpperS "a1" ∨ ("b1" : String) ≠ "B1")) :=
  ⟨by decide,
   (issueStrict_location_check_amended ⟨[⟨"TRIM-001", 10, "A1", "b1", 0⟩], [], []⟩
      ⟨"TRIM-001", 5, "a1", "B1", none⟩ 1 ⟨"TRIM-001", 10, "A1", "b1", 0⟩ (by decide)).1⟩

/-- C2: in both variants every business-rule failure of the issue handler
(NotFound, LocationMismatch in the strict variant, InsufficientQuantity) is
detected before any mutation: on failure the whole store — materials, logs
and bin transactions — is returned unchanged; and the failures are raised
under exactly the documented conditions. -/
theorem issue_failures_before_mutation (st : StoreState) (inp : IssueInput)
    (now : Nat) :
    ((issueStrict st inp now).1 = .notFound ∨
     (issueStrict st inp now).1 = .locationMismatch ∨
     (issueStrict st inp now).1 = .insufficientQuantity →
       (issueStrict st inp now).2 = st) ∧
    ((issueSimple st inp now).1 = .notFound ∨
     (issueSimple st inp now).1 = .insufficientQuantity →
       (issueSimple st inp now).2 = st) ∧
    (getMaterialByCode st inp.materialCode = none →
       (issueStrict st inp now).1 = .notFound ∧
       (issueSimple st inp now).1 = .notFound) ∧
    (∀ ex, getMaterialByCode st inp.materialCode = some ex →
       ex.quantity < inp.quantity →
       (issueSimple st inp now).1 = .insufficientQuantity ∧
       (jsToUpperS ex.rack = jsToUpperS inp.rack → ex.bin = inp.bin →
         (issueStrict st inp now).1 = .insufficientQuantity)) := by
  cases hex : getMaterialByCode st inp.materialCode with
  | none =>
    rw [issueStrict_notFound st inp now hex, issueSimple_notFound st inp now hex]
    refine ⟨fun _ => rfl, fun _ => rfl, fun _ => ⟨rfl, rfl⟩, ?_⟩
    intro ex h
    simp at h
  | some ex =>
    by_cases hloc : jsToUpperS ex.rack ≠ jsToUpperS inp.rack ∨ ex.bin ≠ inp.bin
    · by_cases hq : ex.quantity < inp.quantity
      · rw [issueStrict_mismatch st inp now ex hex hloc,
          issueSimple_insufficient st inp now ex hex hq]
        refine ⟨fun _ => rfl, fun _ => rfl, fun h => by simp at h, ?_⟩
        intro ex₂ h₂ hq₂
        obtain rfl : ex = ex₂ := Option.some_inj.mp h₂
        exact ⟨rfl, fun hr hb => absurd hloc (by simp [hr, hb])⟩
      · rw [issueStrict_mismatch st inp now ex hex hloc,
          issueSimple_success st inp now ex hex hq]
        refine ⟨fun _ => rfl, fun h => by simp at h, fun h => by simp at h, ?_⟩
        intro ex₂ h₂ hq₂
        obtain rfl : ex = ex₂ := Option.some_inj.mp h₂
        exact absurd hq₂ hq
    · push_neg at hloc
      obtain ⟨hrack, hbin⟩ := hloc
      by_cases hq : ex.quantity < inp.quantity
      · rw [issueStrict_insufficient st inp now ex hex hrack hbin hq,
          issueSimple_insufficient st inp now ex hex hq]
        refine ⟨fun _ => rfl, fun _ => rfl, fun h => by simp at h, ?_⟩
        intro ex₂ h₂ hq₂
        obtain rfl : ex = ex₂ := Option.some_inj.mp h₂
        exact ⟨rfl, fun _ _ => rfl⟩
      · rw [issueStrict_success st inp now ex hex hrack hbin hq,
          issueSimple_success st inp now ex hex hq]
        refine ⟨fun h => by simp at h, fun h => by simp at h, fun h => by simp at h, ?_⟩
        intro ex₂ h₂ hq₂
        obtain rfl : ex = ex₂ := Option.some_inj.mp h₂
        exact absurd hq₂ hq

/-- Witness for C2: issuing more than available leaves the store unchanged in
both variants. -/
theorem issue_failures_before_mutation_witness :
    (issueStrict ⟨[⟨"TRIM-001", 10, "A1", "01", 0⟩], [], []⟩
       ⟨"TRIM-001", 200, "A1", "01", none⟩ 1).1 = .insufficientQuantity ∨
    False := by
  refine Or.inl ?_
  have h := (issue_failures_before_mutation ⟨[⟨"TRIM-001", 10, "A1", "01", 0⟩], [], []⟩
    ⟨"TRIM-001", 200, "A1", "01", none⟩ 1).2.2.2
    ⟨"TRIM-001", 10, "A1", "01", 0⟩ (by decide) (by decide)
  exact h.2 (by decide) (by decide)

/-- C4: every successful entry and every successful issue, in both variants,
appends exactly one new Log whose action, quantity, rack and bin are the
supplied values and whose `balanceQty` equals the material's quantity
immediately after that call's mutation. -/
theorem success_appends_exactly_one_log (st : StoreState) (now : Nat) :
    (∀ inp : EntryInput, ∃ newLog m,
       (entryStrict st inp now).2.logs = st.logs ++ [newLog] ∧
       newLog.action = "entry" ∧ newLog.quantity = inp.quantity ∧
       newLog.rack = inp.rack ∧ newLog.bin = inp.bin ∧
       getMaterialByCode (entryStrict st inp now).2 inp.materialCode = some m ∧
       newLog.balanceQty = m.quantity) ∧
    (∀ inp : EntryInput, ∃ newLog m,
       (entrySimple st inp now).2.logs = st.logs ++ [newLog] ∧
       newLog.action = "entry" ∧ newLog.quantity = inp.quantity ∧
       newLog.rack = inp.rack ∧ newLog.bin = inp.bin ∧
       getMaterialByCode (entrySimple st inp now).2 inp.materialCode = some m ∧
       newLog.balanceQty = m.quantity) ∧
    (∀ (inp : IssueInput) (m₀ : Material), (issueStrict st inp now).1 = .ok m₀ →
       ∃ newLog m,
       (issueStrict st inp now).2.logs = st.logs ++ [newLog] ∧
       newLog.action = "issue" ∧ newLog.quantity = inp.quantity ∧
       newLog.rack = inp.rack ∧ newLog.bin = inp.bin ∧
       getMaterialByCode (issueStrict st inp now).2 inp.materialCode = some m ∧
       newLog.balanceQty = m.quantity) ∧
    (∀ (inp : IssueInput) (m₀ : Material), (issueSimple st inp now).1 = .ok m₀ →
       ∃ newLog m,
       (issueSimple st inp now).2.logs = st.logs ++ [newLog] ∧
       newLog.action = "issue" ∧ newLog.quantity = inp.quantity ∧
       newLog.rack = inp.rack ∧ newLog.bin = inp.bin ∧
       getMaterialByCode (issueSimple st inp now).2 inp.materialCode = some m ∧
       newLog.balanceQty = m.quantity) := by
  refine ⟨?_, ?_, ?_, ?_⟩
  · intro inp
    cases hex : getMaterialByCode st inp.materialCode with
    | none =>
      rw [entryStrict_fresh st inp now hex]
      refine ⟨_, ⟨inp.materialCode, inp.quantity, inp.rack, inp.bin, now⟩,
        rfl, rfl, rfl, rfl, rfl, ?_, rfl⟩
      exact getMaterialByCode_snoc_fresh st.materials _ _ _ hex
    | some ex =>
      rw [entryStrict_existing st inp now ex hex]
      refine ⟨_, ⟨ex.code, ex.quantity + inp.quantity, inp.rack, inp.bin, now⟩,
        rfl, rfl, rfl, rfl, rfl, ?_, rfl⟩
      exact getMaterialByCode_mapped st inp.materialCode _ now _ _ ex hex
  · intro inp
    cases hex : getMaterialByCode st inp.materialCode with
    | none =>
      rw [entrySimple_fresh st inp now hex]
      refine ⟨_, ⟨inp.materialCode, inp.quantity, inp.rack, inp.bin, now⟩,
        rfl, rfl, rfl, rfl, rfl, ?_, rfl⟩
      exact getMaterialByCode_snoc_fresh st.materials _ _ _ hex
    | some ex =>
      rw [entrySimple_existing st inp now ex hex]
      refine ⟨_, ⟨ex.code, ex.quantity + inp.quantity, inp.rack, inp.bin, now⟩,
        rfl, rfl, rfl, rfl, rfl, ?_, rfl⟩
      exact getMaterialByCode_mapped st inp.materialCode _ now _ _ ex hex
  · intro inp m₀ hok
    cases hex : getMaterialByCode st inp.materialCode with
    | none => rw [issueStrict_notFound st inp now hex] at hok; simp at hok
    | some ex =>
      by_cases hloc : jsToUpperS ex.rack ≠ jsToUpperS inp.rack ∨ ex.bin ≠ inp.bin
      · rw [issueStrict_mismatch st inp now ex hex hloc] at hok; simp at hok
      · push_neg at hloc
        obtain ⟨hrack, hbin⟩ := hloc
        by_cases hq : ex.quantity < inp.quantity
        · rw [issueStrict_insufficient st inp now ex hex hrack hbin hq] at hok
          simp at hok
        · rw [issueStrict_success st inp now ex hex hrack hbin hq]
          refine ⟨_, ⟨ex.code, ex.quantity - inp.quantity, ex.rack, ex.bin, now⟩,
            rfl, rfl, rfl, rfl, rfl, ?_, rfl⟩
          exact getMaterialByCode_mapped st inp.materialCode _ now _ _ ex hex
  · intro inp m₀ hok
    cases hex : getMaterialByCode st inp.materialCode with
    | none => rw [issueSimple_notFound st inp now hex] at hok; simp at hok
    | some ex =>
      by_cases hq : ex.quantity < inp.quantity
      · rw [issueSimple_insufficient st inp now ex hex hq] at hok; simp at hok
      · rw [issueSimple_success st inp now ex hex hq]
        refine ⟨_, ⟨ex.code, ex.quantity - inp.quantity, ex.rack, ex.bin, now⟩,
          rfl, rfl, rfl, rfl, rfl, ?_, rfl⟩
        exact getMaterialByCode_mapped st inp.materialCode _ now _ _ ex hex

/-- Witness for C4: a successful strict issue on a concrete store appends its
one log. -/
theorem success_appends_exactly_one_log_witness :
    (issueStrict ⟨[⟨"TRIM-001", 100, "A1", "01", 0⟩], [], []⟩
       ⟨"TRIM-001", 30, "A1", "01", some "p"⟩ 2).1
      = .ok ⟨"TRIM-001", 70, "A1", "01", 2⟩ ∧
    ∃ newLog m,
      (issueStrict ⟨[⟨"TRIM-001", 100, "A1", "01", 0⟩], [], []⟩
         ⟨"TRIM-001", 30, "A1", "01", some "p"⟩ 2).2.logs = [] ++ [newLog] ∧
      newLog.action = "issue" ∧ newLog.quantity = (30 : Int) ∧
      newLog.rack = "A1" ∧ newLog.bin = "01" ∧
      getMaterialByCode (issueStrict ⟨[⟨"TRIM-001", 100, "A1", "01", 0⟩], [], []⟩
         ⟨"TRIM-001", 30, "A1", "01", some "p"⟩ 2).2 "TRIM-001" = some m ∧
      newLog.balanceQty = m.quantity :=
  ⟨by decide,
   (success_appends_exactly_one_log ⟨[⟨"TRIM-001", 100, "A1", "01", 0⟩], [], []⟩ 2).2.2.1
     ⟨"TRIM-001", 30, "A1", "01", some "p"⟩ ⟨"TRIM-001", 70, "A1", "01", 2⟩ (by decide)⟩

/-- A one-row demonstration store used to exhibit the search crash. -/
def searchBugState : StoreState :=
  ⟨[⟨"TRIM-001", 100, "A1", "01", 0⟩], [], []⟩

/-- C6: with no search term `listMaterials` returns all materials ordered
newest `lastUpdated` first; but the code is not total — a term containing
both markers and no hyphen (here `"rack:A1 bin:01"`) makes it dereference
`parts[1]`, which is `undefined`, and throw (modelled as `none`). -/
theorem getMaterials_total_and_ordered :
    (∀ st : StoreState, ∃ l, getMaterials none st = some l ∧
       l.Perm st.materials ∧ l.Sorted newestFirst) ∧
    getMaterials (some "rack:A1 bin:01") searchBugState = none := by
  constructor
  · intro st
    exact ⟨sortByLastUpdatedDesc st.materials, rfl,
      List.perm_insertionSort newestFirst st.materials,
      List.sorted_insertionSort newestFirst st.materials⟩
  · rfl

/-- Drive a list of entry calls through the strict entry handler, collecting
the per-call results. -/
def runEntriesStrict (now : Nat) : StoreState → List EntryInput → StoreState × List EntryResult
  | st, [] => (st, [])
  | st, i :: is =>
    ((runEntriesStrict now (entryStrict st i now).2 is).1,
     (entryStrict st i now).1 :: (runEntriesStrict now (entryStrict st i now).2 is).2)

/-- Drive a list of entry calls through the simple entry handler. -/
def runEntriesSimple (now : Nat) : StoreState → List EntryInput → StoreState × List EntryResult
  | st, [] => (st, [])
  | st, i :: is =>
    ((runEntriesSimple now (entrySimple st i now).2 is).1,
     (entrySimple st i now).1 :: (runEntriesSimple now (entrySimple st i now).2 is).2)

/-- Once the code exists, a run of strict entries keeps one row for it, adds
up the quantities, tracks the last entry's rack/bin, and answers 200
throughout. -/
theorem runEntriesStrict_existing (now : Nat) (c : String) :
    ∀ (l : List EntryInput) (st : StoreState) (ex : Material),
      getMaterialByCode st c = some ex → (∀ i ∈ l, i.materialCode = c) →
      ∃ m, getMaterialByCode (runEntriesStrict now st l).1 c = some m ∧
        m.quantity = ex.quantity + (l.map EntryInput.quantity).sum ∧
        (l = [] → m = ex) ∧
        (∀ last, l.getLast? = some last → m.rack = last.rack ∧ m.bin = last.bin) ∧
        (runEntriesStrict now st l).2.map entryHttpStatus = List.replicate l.length 200 := by
  intro l
  induction l with
  | nil =>
    intro st ex hex _
    exact ⟨ex, hex, by simp, fun _ => rfl, fun last h => by simp at h, rfl⟩
  | cons i is ih =>
    intro st ex hex hc
    have hci : i.materialCode = c := hc i (List.mem_cons_self i is)
    subst hci
    have hstep := entryStrict_existing st i now ex hex
    have hm : getMaterialByCode (entryStrict st i now).2 i.materialCode
        = some ⟨ex.code, ex.quantity + i.quantity, i.rack, i.bin, now⟩ := by
      rw [hstep]
      exact getMaterialByCode_mapped st i.materialCode _ now _ _ ex hex
    have hcs : ∀ j ∈ is, j.materialCode = i.materialCode :=
      fun j hj => hc j (List.mem_cons_of_mem _ hj)
    obtain ⟨m, hfind, hq, hnil, hlast, hst⟩ :=
      ih (entryStrict st i now).2 ⟨ex.code, ex.quantity + i.quantity, i.rack, i.bin, now⟩ hm hcs
    refine ⟨m, hfind, ?_, ?_, ?_, ?_⟩
    · rw [List.map_cons, List.sum_cons, ← add_assoc]
      exact hq
    · intro h
      exact (List.cons_ne_nil i is h).elim
    · intro last hl
      cases is with
      | nil =>
        have hmn := hnil rfl
        simp only [List.getLast?_singleton, Option.some_inj] at hl
        subst hl
        rw [hmn]
        exact ⟨rfl, rfl⟩
      | cons j js =>
        rw [List.getLast?_cons_cons] at hl
        exact hlast last hl
    · show List.map entryHttpStatus
        ((entryStrict st i now).1 :: (runEntriesStrict now (entryStrict st i now).2 is).2)
        = _
      rw [List.map_cons, hst, hstep]
      rfl

/-- Simple-variant analogue of `runEntriesStrict_existing`. -/
theorem runEntriesSimple_existing (now : Nat) (c : String) :
    ∀ (l : List EntryInput) (st : StoreState) (ex : Material),
      getMaterialByCode st c = some ex → (∀ i ∈ l, i.materialCode = c) →
      ∃ m, getMaterialByCode (runEntriesSimple now st l).1 c = some m ∧
        m.quantity = ex.quantity + (l.map EntryInput.quantity).sum ∧
        (l = [] → m = ex) ∧
        (∀ last, l.getLast? = some last → m.rack = last.rack ∧ m.bin = last.bin) ∧
        (runEntriesSimple now st l).2.map entryHttpStatus = List.replicate l.length 200 := by
  intro l
  induction l with
  | nil =>
    intro st ex hex _
    exact ⟨ex, hex, by simp, fun _ => rfl, fun last h => by simp at h, rfl⟩
  | cons i is ih =>
    intro st ex hex hc
    have hci : i.materialCode = c := hc i (List.mem_cons_self i is)
    subst hci
    have hstep := entrySimple_existing st i now ex hex
    have hm : getMaterialByCode (entrySimple st i now).2 i.materialCode
        = some ⟨ex.code, ex.quantity + i.quantity, i.rack, i.bin, now⟩ := by
      rw [hstep]
      exact getMaterialByCode_mapped st i.materialCode _ now _ _ ex hex
    have hcs : ∀ j ∈ is, j.materialCode = i.materialCode :=
      fun j hj => hc j (List.mem_cons_of_mem _ hj)
    obtain ⟨m, hfind, hq, hnil, hlast, hst⟩ :=
      ih (entrySimple st i now).2 ⟨ex.code, ex.quantity + i.quantity, i.rack, i.bin, now⟩ hm hcs
    refine ⟨m, hfind, ?_, ?_, ?_, ?_⟩
    · rw [List.map_cons, List.sum_cons, ← add_assoc]
      exact hq
    · intro h
      exact (List.cons_ne_nil i is h).elim
    · intro last hl
      cases is with
      | nil =>
        have hmn := hnil rfl
        simp only [List.getLast?_singleton, Option.some_inj] at hl
        subst hl
        rw [hmn]
        exact ⟨rfl, rfl⟩
      | cons j js =>
        rw [List.getLast?_cons_cons] at hl
        exact hlast last hl
    · show List.map entryHttpStatus
        ((entrySimple st i now).1 :: (runEntriesSimple now (entrySimple st i now).2 is).2)
        = _
      rw [List.map_cons, hst, hstep]
      rfl

/-- C3: running any nonempty sequence of entry calls for a code with no
pre-existing Material, in either variant, yields a material whose quantity is
the sum of the entered quantities and whose rack/bin are the last entry's
values; the first call answers 201 (created) and every further call answers
200 (updated). -/
theorem entry_sequence_fresh_code (st : StoreState) (c : String)
    (l : List EntryInput) (now : Nat)
    (hfresh : getMaterialByCode st c = none)
    (hcode : ∀ i ∈ l, i.materialCode = c) (hne : l ≠ []) :
    (∃ m, getMaterialByCode (runEntriesStrict now st l).1 c = some m ∧
       m.quantity = (l.map EntryInput.quantity).sum ∧
       (∀ last, l.getLast? = some last → m.rack = last.rack ∧ m.bin = last.bin) ∧
       (runEntriesStrict now st l).2.map entryHttpStatus
         = 201 :: List.replicate (l.length - 1) 200) ∧
    (∃ m, getMaterialByCode (runEntriesSimple now st l).1 c = some m ∧
       m.quantity = (l.map EntryInput.quantity).sum ∧
       (∀ last, l.getLast? = some last → m.rack = last.rack ∧ m.bin = last.bin) ∧
       (runEntriesSimple now st l).2.map entryHttpStatus
         = 201 :: List.replicate (l.length - 1) 200) := by
  cases l with
  | nil => exact absurd rfl hne
  | cons i is =>
    have hci : i.materialCode = c := hcode i (List.mem_cons_self i is)
    subst hci
    have hcs : ∀ j ∈ is, j.materialCode = i.materialCode :=
      fun j hj => hcode j (List.mem_cons_of_mem _ hj)
    constructor
    · have hstep := entryStrict_fresh st i now hfresh
      have hm : getMaterialByCode (entryStrict st i now).2 i.materialCode
          = some ⟨i.materialCode, i.quantity, i.rack, i.bin, now⟩ := by
        rw [hstep]
        exact getMaterialByCode_snoc_fresh st.materials _ _ _ hfresh
      obtain ⟨m, hfind, hq, hnil, hlast, hst⟩ := runEntriesStrict_existing now i.materialCode
        is (entryStrict st i now).2 ⟨i.materialCode, i.quantity, i.rack, i.bin, now⟩ hm hcs
      refine ⟨m, hfind, ?_, ?_, ?_⟩
      · rw [List.map_cons, List.sum_cons]
        exact hq
      · intro last hl
        cases is with
        | nil =>
          have hmn := hnil rfl
          simp only [List.getLast?_singleton, Option.some_inj] at hl
          subst hl
          rw [hmn]
          exact ⟨rfl, rfl⟩
        | cons j js =>
          rw [List.getLast?_cons_cons] at hl
          exact hlast last hl
      · show List.map entryHttpStatus
          ((entryStrict st i now).1 :: (runEntriesStrict now (entryStrict st i now).2 is).2)
          = _
        rw [List.map_cons, hst, hstep]
        rfl
    · have hstep := entrySimple_fresh st i now hfresh
      have hm : getMaterialByCode (entrySimple st i now).2 i.materialCode
          = some ⟨i.materialCode, i.quantity, i.rack, i.bin, now⟩ := by
        rw [hstep]
        exact getMaterialByCode_snoc_fresh st.materials _ _ _ hfresh
      obtain ⟨m, hfind, hq, hnil, hlast, hst⟩ := runEntriesSimple_existing now i.materialCode
        is (entrySimple st i now).2 ⟨i.materialCode, i.quantity, i.rack, i.bin, now⟩ hm hcs
      refine ⟨m, hfind, ?_, ?_, ?_⟩
      · rw [List.map_cons, List.sum_cons]
        exact hq
      · intro last hl
        cases is with
        | nil =>
          have hmn := hnil rfl
          simp only [List.getLast?_singleton, Option.some_inj] at hl
          subst hl
          rw [hmn]
          exact ⟨rfl, rfl⟩
        | cons j js =>
          rw [List.getLast?_cons_cons] at hl
          exact hlast last hl
      · show List.map entryHttpStatus
          ((entrySimple st i now).1 :: (runEntriesSimple now (entrySimple st i now).2 is).2)
          = _
        rw [List.map_cons, hst, hstep]
        rfl

/-- Witness for C3 on a concrete two-entry run. -/
theorem entry_sequence_fresh_code_witness :
    getMaterialByCode ⟨[], [], []⟩ "M1" = none ∧
    (∃ m, getMaterialByCode (runEntriesStrict 1 ⟨[], [], []⟩
        [⟨"M1", 5, "A1", "01", none⟩, ⟨"M1", 7, "B2", "15", none⟩]).1 "M1" = some m ∧
      m.quantity = (([⟨"M1", 5, "A1", "01", none⟩, ⟨"M1", 7, "B2", "15", none⟩] :
          List EntryInput).map EntryInput.quantity).sum ∧
      (∀ last, ([⟨"M1", 5, "A1", "01", none⟩, ⟨"M1", 7, "B2", "15", none⟩] :
          List EntryInput).getLast? = some last →
        m.rack = last.rack ∧ m.bin = last.bin) ∧
      (runEntriesStrict 1 ⟨[], [], []⟩
        [⟨"M1", 5, "A1", "01", none⟩, ⟨"M1", 7, "B2", "15", none⟩]).2.map entryHttpStatus
        = 201 :: List.replicate 1 200) :=
  ⟨by decide,
   (entry_sequence_fresh_code ⟨[], [], []⟩ "M1"
      [⟨"M1", 5, "A1", "01", none⟩, ⟨"M1", 7, "B2", "15", none⟩] 1
      (by decide) (by decide) (by decide)).1⟩

/-- One reachable operation of the system (each carrying its logical
timestamp where the operation stamps `lastUpdated`). -/
inductive Op where
  | entryStrictOp (i : EntryInput) (now : Nat)
  | entrySimpleOp (i : EntryInput) (now : Nat)
  | issueStrictOp (i : IssueInput) (now : Nat)
  | issueSimpleOp (i : IssueInput) (now : Nat)
  | resetOp (now : Nat)
  | deleteOp (c : String)
  | clearLogsOp
deriving DecidableEq, Repr

/-- State transition of one operation. -/
def applyOp (st : StoreState) : Op → StoreState
  | .entryStrictOp i now => (entryStrict st i now).2
  | .entrySimpleOp i now => (entrySimple st i now).2
  | .issueStrictOp i now => (issueStrict st i now).2
  | .issueSimpleOp i now => (issueSimple st i now).2
  | .resetOp now => resetInventory st now
  | .deleteOp c => deleteMaterial st c
  | .clearLogsOp => clearLogs st

/-- The validation constraint the request layer puts on entry calls: the
entered quantity is a positive integer. -/
def entryQuantityPositive : Op → Bool
  | .entryStrictOp i _ => decide (0 < i.quantity)
  | .entrySimpleOp i _ => decide (0 < i.quantity)
  | _ => true

/-- Invariant: every material row carries a non-negative quantity. -/
def NonnegQuantities (st : StoreState) : Prop :=
  ∀ m ∈ st.materials, 0 ≤ m.quantity

instance (st : StoreState) : Decidable (NonnegQuantities st) :=
  inferInstanceAs (Decidable (∀ m ∈ st.materials, (0 : Int) ≤ m.quantity))

theorem nonneg_of_mem_update {st : StoreState} {code : String} {q : Int}
    {u : MaterialUpdate} {now : Nat}
    (hq : 0 ≤ q) (hu : u.quantity = some q) (hst : NonnegQuantities st) :
    ∀ m ∈ st.materials.map (fun m => if m.code == code then applyUpdate u now m else m),
      0 ≤ m.quantity := by
  intro m hm
  obtain ⟨a, ha, rfl⟩ := List.mem_map.mp hm
  by_cases h : (a.code == code) = true
  · rw [if_pos h]
    show 0 ≤ u.quantity.getD a.quantity
    rw [hu]
    exact hq
  · rw [if_neg h]
    exact hst a ha

theorem nonneg_entryStrict (st : StoreState) (i : EntryInput) (now : Nat)
    (hst : NonnegQuantities st) (hp : 0 < i.quantity) :
    NonnegQuantities (entryStrict st i now).2 := by
  cases hex : getMaterialByCode st i.materialCode with
  | none =>
    rw [entryStrict_fresh st i now hex]
    intro m hm
    rcases List.mem_append.mp hm with h | h
    · exact hst m h
    · rw [List.mem_singleton.mp h]
      exact le_of_lt hp
  | some ex =>
    have hexq : 0 ≤ ex.quantity := hst ex (List.mem_of_find?_eq_some hex)
    rw [entryStrict_existing st i now ex hex]
    exact nonneg_of_mem_update (by linarith) rfl hst

theorem nonneg_entrySimple (st : StoreState) (i : EntryInput) (now : Nat)
    (hst : NonnegQuantities st) (hp : 0 < i.quantity) :
    NonnegQuantities (entrySimple st i now).2 := by
  cases hex : getMaterialByCode st i.materialCode with
  | none =>
    rw [entrySimple_fresh st i now hex]
    intro m hm
    rcases List.mem_append.mp hm with h | h
    · exact hst m h
    · rw [List.mem_singleton.mp h]
      exact le_of_lt hp
  | some ex =>
    have hexq : 0 ≤ ex.quantity := hst ex (List.mem_of_find?_eq_some hex)
    rw [entrySimple_existing st i now ex hex]
    exact nonneg_of_mem_update (by linarith) rfl hst

theorem nonneg_issueStrict (st : StoreState) (i : IssueInput) (now : Nat)
    (hst : NonnegQuantities st) :
    NonnegQuantities (issueStrict st i now).2 := by
  cases hex : getMaterialByCode st i.materialCode with
  | none => rw [issueStrict_notFound st i now hex]; exact hst
  | some ex =>
    by_cases hloc : jsToUpperS ex.rack ≠ jsToUpperS i.rack ∨ ex.bin ≠ i.bin
    · rw [issueStrict_mismatch st i now ex hex hloc]; exact hst
    · push_neg at hloc
      obtain ⟨hrack, hbin⟩ := hloc
      by_cases hq : ex.quantity < i.quantity
      · rw [issueStrict_insufficient st i now ex hex hrack hbin hq]; exact hst
      · rw [issueStrict_success st i now ex hex hrack hbin hq]
        push_neg at hq
        exact nonneg_of_mem_update (by linarith) rfl hst

theorem nonneg_issueSimple (st : StoreState) (i : IssueInput) (now : Nat)
    (hst : NonnegQuantities st) :
    NonnegQuantities (issueSimple st i now).2 := by
  cases hex : getMaterialByCode st i.materialCode with
  | none => rw [issueSimple_notFound st i now hex]; exact hst
  | some ex =>
    by_cases hq : ex.quantity < i.quantity
    · rw [issueSimple_insufficient st i now ex hex hq]; exact hst
    · rw [issueSimple_success st i now ex hex hq]
      push_neg at hq
      exact nonneg_of_mem_update (by linarith) rfl hst

/-- C7: no reachable sequence of operations produces a Material with negative
quantity — starting from any store satisfying the invariant and applying any
sequence of entry (positive quantity), issue, reset, delete, clear-logs
operations, in either variant, every material row still has quantity ≥ 0. -/
theorem quantities_never_negative (ops : List Op) (st : StoreState)
    (hst : NonnegQuantities st)
    (hops : ∀ o ∈ ops, entryQuantityPositive o = true) :
    NonnegQuantities (ops.foldl applyOp st) := by
  induction ops generalizing st with
  | nil => exact hst
  | cons o os ih =>
    have h₁ : NonnegQuantities (applyOp st o) := by
      cases o with
      | entryStrictOp i now =>
        exact nonneg_entryStrict st i now hst
          (of_decide_eq_true (hops _ (List.mem_cons_self _ _)))
      | entrySimpleOp i now =>
        exact nonneg_entrySimple st i now hst
          (of_decide_eq_true (hops _ (List.mem_cons_self _ _)))
      | issueStrictOp i now => exact nonneg_issueStrict st i now hst
      | issueSimpleOp i now => exact nonneg_issueSimple st i now hst
      | resetOp now =>
        intro m hm
        obtain ⟨a, _, rfl⟩ := List.mem_map.mp hm
        exact le_refl 0
      | deleteOp c =>
        intro m hm
        exact hst m (List.mem_of_mem_filter hm)
      | clearLogsOp => exact hst
    exact ih (applyOp st o) h₁ (fun o₂ ho₂ => hops o₂ (List.mem_cons_of_mem _ ho₂))

/-- Witness for C7 on a concrete run mixing all operation kinds. -/
theorem quantities_never_negative_witness :
    NonnegQuantities ⟨[⟨"TRIM-001", 3, "A1", "01", 0⟩], [], []⟩ ∧
    NonnegQuantities
      ([Op.entryStrictOp ⟨"M2", 5, "B2", "15", none⟩ 1,
        Op.issueStrictOp ⟨"M2", 5, "B2", "15", none⟩ 2,
        Op.issueSimpleOp ⟨"TRIM-001", 9, "A1", "01", none⟩ 3,
        Op.resetOp 4,
        Op.deleteOp "M2",
        Op.clearLogsOp].foldl applyOp ⟨[⟨"TRIM-001", 3, "A1", "01", 0⟩], [], []⟩) :=
  ⟨by decide,
   quantities_never_negative
     [Op.entryStrictOp ⟨"M2", 5, "B2", "15", none⟩ 1,
      Op.issueStrictOp ⟨"M2", 5, "B2", "15", none⟩ 2,
      Op.issueSimpleOp ⟨"TRIM-001", 9, "A1", "01", none⟩ 3,
      Op.resetOp 4,
      Op.deleteOp "M2",
      Op.clearLogsOp]
     ⟨[⟨"TRIM-001", 3, "A1", "01", 0⟩], [], []⟩ (by decide) (by decide)⟩

/-- C9: the two route implementations diverge exactly as described — on
identical inputs the entry handlers produce the same result and the same
material table (the strict one additionally records a BinTransaction); the
simple issue handler never records a BinTransaction, ignores the supplied
rack/bin entirely, and succeeds whenever the material exists with sufficient
quantity; the strict issue handler enforces the location check and appends a
BinTransaction on every successful entry and issue. -/
theorem variants_divergence (st : StoreState) (now : Nat) :
    (∀ i : EntryInput,
       (entryStrict st i now).2.materials = (entrySimple st i now).2.materials ∧
       (entryStrict st i now).1 = (entrySimple st i now).1) ∧
    (∀ i : IssueInput,
       (issueSimple st i now).2.binTransactions = st.binTransactions) ∧
    (∀ (i : IssueInput) (r₂ b₂ : String),
       (issueSimple st { i with rack := r₂, bin := b₂ } now).1
         = (issueSimple st i now).1 ∧
       (issueSimple st { i with rack := r₂, bin := b₂ } now).2.materials
         = (issueSimple st i now).2.materials) ∧
    (∀ (i : IssueInput) (ex : Material),
       getMaterialByCode st i.materialCode = some ex →
       ¬ ex.quantity < i.quantity →
       ∃ m, (issueSimple st i now).1 = .ok m) ∧
    (∀ i : EntryInput,
       ∃ t, (entryStrict st i now).2.binTransactions = st.binTransactions ++ [t]) ∧
    (∀ (i : IssueInput) (m : Material), (issueStrict st i now).1 = .ok m →
       ∃ t, (issueStrict st i now).2.binTransactions = st.binTransactions ++ [t]) ∧
    (∀ (i : IssueInput) (ex : Material),
       getMaterialByCode st i.materialCode = some ex →
       (jsToUpperS ex.rack ≠ jsToUpperS i.rack ∨ ex.bin ≠ i.bin) →
       issueStrict st i now = (.locationMismatch, st)) := by
  refine ⟨?_, ?_, ?_, ?_, ?_, ?_, ?_⟩
  · intro i
    cases hex : getMaterialByCode st i.materialCode with
    | none =>
      rw [entryStrict_fresh st i now hex, entrySimple_fresh st i now hex]
      exact ⟨rfl, rfl⟩
    | some ex =>
      rw [entryStrict_existing st i now ex hex, entrySimple_existing st i now ex hex]
      exact ⟨rfl, rfl⟩
  · intro i
    cases hex : getMaterialByCode st i.materialCode with
    | none => rw [issueSimple_notFound st i now hex]
    | some ex =>
      by_cases hq : ex.quantity < i.quantity
      · rw [issueSimple_insufficient st i now ex hex hq]
      · rw [issueSimple_success st i now ex hex hq]
  · intro i r₂ b₂
    cases hex : getMaterialByCode st i.materialCode with
    | none =>
      rw [issueSimple_notFound st i now hex,
        issueSimple_notFound st { i with rack := r₂, bin := b₂ } now hex]
      exact ⟨rfl, rfl⟩
    | some ex =>
      by_cases hq : ex.quantity < i.quantity
      · rw [issueSimple_insufficient st i now ex hex hq,
          issueSimple_insufficient st { i with rack := r₂, bin := b₂ } now ex hex hq]
        exact ⟨rfl, rfl⟩
      · rw [issueSimple_success st i now ex hex hq,
          issueSimple_success st { i with rack := r₂, bin := b₂ } now ex hex hq]
        exact ⟨rfl, rfl⟩
  · intro i ex hex hq
    rw [issueSimple_success st i now ex hex hq]
    exact ⟨_, rfl⟩
  · intro i
    cases hex : getMaterialByCode st i.materialCode with
    | none => rw [entryStrict_fresh st i now hex]; exact ⟨_, rfl⟩
    | some ex => rw [entryStrict_existing st i now ex hex]; exact ⟨_, rfl⟩
  · intro i m hok
    cases hex : getMaterialByCode st i.materialCode with
    | none => rw [issueStrict_notFound st i now hex] at hok; simp at hok
    | some ex =>
      by_cases hloc : jsToUpperS ex.rack ≠ jsToUpperS i.rack ∨ ex.bin ≠ i.bin
      · rw [issueStrict_mismatch st i now ex hex hloc] at hok; simp at hok
      · push_neg at hloc
        obtain ⟨hrack, hbin⟩ := hloc
        by_cases hq : ex.quantity < i.quantity
        · rw [issueStrict_insufficient st i now ex hex hrack hbin hq] at hok
          simp at hok
        · rw [issueStrict_success st i now ex hex hrack hbin hq]
          exact ⟨_, rfl⟩
  · intro i ex hex hloc
    exact issueStrict_mismatch st i now ex hex hloc

/-- Witness for C9: the simple issue handler succeeds from a location that
does not match the stored one. -/
theorem variants_divergence_witness :
    getMaterialByCode ⟨[⟨"TRIM-001", 10, "A1", "01", 0⟩], [], []⟩
      (IssueInput.materialCode ⟨"TRIM-001", 4, "Z9", "77", none⟩)
      = some ⟨"TRIM-001", 10, "A1", "01", 0⟩ ∧
    ∃ m, (issueSimple ⟨[⟨"TRIM-001", 10, "A1", "01", 0⟩], [], []⟩
      ⟨"TRIM-001", 4, "Z9", "77", none⟩ 1).1 = .ok m :=
  ⟨by decide,
   (variants_divergence ⟨[⟨"TRIM-001", 10, "A1", "01", 0⟩], [], []⟩ 1).2.2.2.1
     ⟨"TRIM-001", 4, "Z9", "77", none⟩ ⟨"TRIM-001", 10, "A1", "01", 0⟩
     (by decide) (by decide)⟩

/-! ### String lemmas for the search-term grammar -/

theorem isPrefixOf_append_self : ∀ (a b : List Char), a.isPrefixOf (a ++ b) = true
  | [], b => by cases b <;> rfl
  | c :: cs, b => by simp [List.isPrefixOf, isPrefixOf_append_self cs b]

theorem jsIncludes_append_self (pat suf : List Char) :
    jsIncludes pat (pat ++ suf) = true := by
  cases pat with
  | nil => cases suf <;> rfl
  | cons p ps =>
    show jsIncludes (p :: ps) (p :: (ps ++ suf)) = true
    have he : jsIncludes (p :: ps) (p :: (ps ++ suf))
        = ((p :: ps).isPrefixOf (p :: (ps ++ suf)) || jsIncludes (p :: ps) (ps ++ suf)) :=
      rfl
    rw [he, show (p :: ps).isPrefixOf (p :: (ps ++ suf)) = true from
      isPrefixOf_append_self (p :: ps) suf]
    rfl

theorem jsIncludes_inside (pat pre suf : List Char) :
    jsIncludes pat (pre ++ pat ++ suf) = true := by
  induction pre with
  | nil => exact jsIncludes_append_self pat suf
  | cons c pre ih =>
    show jsIncludes pat (c :: (pre ++ pat ++ suf)) = true
    have he : jsIncludes pat (c :: (pre ++ pat ++ suf))
        = (pat.isPrefixOf (c :: (pre ++ pat ++ suf)) || jsIncludes pat (pre ++ pat ++ suf)) :=
      rfl
    rw [he, ih, Bool.or_true]

theorem jsSplitChar_no_sep (sep : Char) : ∀ (a : List Char), sep ∉ a →
    jsSplitChar sep a = [a]
  | [], _ => rfl
  | c :: cs, h => by
    have hc : ¬ c = sep := fun e => h (by rw [e]; exact List.mem_cons_self _ _)
    have hcs : sep ∉ cs := fun hm => h (List.mem_cons_of_mem _ hm)
    simp [jsSplitChar, hc, jsSplitChar_no_sep sep cs hcs]

theorem jsSplitChar_append (sep : Char) : ∀ (a b : List Char), sep ∉ a →
    jsSplitChar sep (a ++ sep :: b) = a :: jsSplitChar sep b
  | [], b, _ => by simp [jsSplitChar]
  | c :: cs, b, h => by
    have hc : ¬ c = sep := fun e => h (by rw [e]; exact List.mem_cons_self _ _)
    have hcs : sep ∉ cs := fun hm => h (List.mem_cons_of_mem _ hm)
    simp [jsSplitChar, hc, jsSplitChar_append sep cs b hcs]

theorem jsReplaceFirst_cancel (pat rest : List Char) (hp : pat ≠ []) :
    jsReplaceFirst pat [] (pat ++ rest) = rest := by
  cases pat with
  | nil => exact absurd rfl hp
  | cons p ps =>
    show jsReplaceFirst (p :: ps) [] (p :: (ps ++ rest)) = rest
    have hpre : (p :: ps).isPrefixOf (p :: (ps ++ rest)) = true :=
      isPrefixOf_append_self (p :: ps) rest
    simp only [jsReplaceFirst]
    rw [if_pos hpre]
    show [] ++ ((p :: ps) ++ rest).drop (p :: ps).length = rest
    rw [List.nil_append]
    exact List.drop_left (p :: ps) rest

/-- C5: a search term of the shape `rack:R-bin:B` (with hyphen-free `R` and
`B`) makes `getMaterials` return exactly the materials whose rack equals the
parsed (trimmed) rack value and whose bin equals the parsed bin value, both
compared case-insensitively. -/
theorem getMaterials_rack_bin_search (st : StoreState) (r b : String)
    (hr : '-' ∉ r.data) (hb : '-' ∉ b.data) :
    ∃ l, getMaterials (some ("rack:" ++ r ++ "-" ++ "bin:" ++ b)) st = some l ∧
      ∀ m : Material, m ∈ l ↔ m ∈ st.materials ∧
        jsToLower m.rack.data = jsToLower (jsTrim r.data) ∧
        jsToLower m.bin.data = jsToLower (jsTrim b.data) := by
  have hdataA : ("rack:" ++ r ++ "-" ++ "bin:" ++ b).data
      = ("rack:".data ++ r.data) ++ ('-' :: ("bin:".data ++ b.data)) := by
    show ((("rack:".data ++ r.data) ++ ['-']) ++ "bin:".data) ++ b.data = _
    simp [List.append_assoc]
  have hne : ("rack:" ++ r ++ "-" ++ "bin:" ++ b) ≠ "" := by
    intro h
    have hd : ("rack:" ++ r ++ "-" ++ "bin:" ++ b).data = "".data :=
      congrArg String.data h
    rw [hdataA] at hd
    rw [List.append_eq_nil] at hd
    rw [List.append_eq_nil] at hd
    exact absurd hd.1.1 (by decide)
  have hinc1 : jsIncludes "rack:".data ("rack:" ++ r ++ "-" ++ "bin:" ++ b).data
      = true := by
    rw [hdataA, List.append_assoc]
    exact jsIncludes_inside "rack:".data [] _
  have hinc2 : jsIncludes "bin:".data ("rack:" ++ r ++ "-" ++ "bin:" ++ b).data
      = true :=
    jsIncludes_inside "bin:".data (("rack:".data ++ r.data) ++ ['-']) b.data
  have hAnosep : '-' ∉ "rack:".data ++ r.data := by
    intro hmem
    rcases List.mem_append.mp hmem with h | h
    · exact absurd h (by decide)
    · exact hr h
  have hBnosep : '-' ∉ "bin:".data ++ b.data := by
    intro hmem
    rcases List.mem_append.mp hmem with h | h
    · exact absurd h (by decide)
    · exact hb h
  have hsplit : jsSplitChar '-' ("rack:" ++ r ++ "-" ++ "bin:" ++ b).data
      = ("rack:".data ++ r.data) :: ["bin:".data ++ b.data] := by
    rw [hdataA, jsSplitChar_append '-' _ _ hAnosep,
      jsSplitChar_no_sep '-' _ hBnosep]
  have hrep1 : jsReplaceFirst "rack:".data [] ("rack:".data ++ r.data) = r.data :=
    jsReplaceFirst_cancel "rack:".data r.data (by decide)
  have hrep2 : jsReplaceFirst "bin:".data [] ("bin:".data ++ b.data) = b.data :=
    jsReplaceFirst_cancel "bin:".data b.data (by decide)
  refine ⟨sortByLastUpdatedDesc (st.materials.filter (fun m =>
      jsToLower m.rack.data == jsToLower (jsTrim r.data) &&
      jsToLower m.bin.data == jsToLower (jsTrim b.data))), ?_, ?_⟩
  · simp only [getMaterials, if_neg hne, hinc1, hinc2, Bool.and_self, if_true,
      hsplit, hrep1, hrep2]
  · intro m
    simp only [sortByLastUpdatedDesc, List.mem_insertionSort, List.mem_filter,
      Bool.and_eq_true, beq_iff_eq, and_assoc]

/-- Witness for C5: the concrete search `rack:A1-bin:01` on a two-material
store. -/
theorem getMaterials_rack_bin_search_witness :
    ('-' ∉ "A1".data) ∧ ('-' ∉ "01".data) ∧
    ∃ l, getMaterials (some ("rack:" ++ "A1" ++ "-" ++ "bin:" ++ "01"))
        ⟨[⟨"TRIM-001", 100, "A1", "01", 1⟩, ⟨"TRIM-002", 50, "B2", "15", 2⟩], [], []⟩
        = some l ∧
      ∀ m : Material, m ∈ l ↔
        m ∈ (⟨[⟨"TRIM-001", 100, "A1", "01", 1⟩, ⟨"TRIM-002", 50, "B2", "15", 2⟩],
          [], []⟩ : StoreState).materials ∧
        jsToLower m.rack.data = jsToLower (jsTrim "A1".data) ∧
        jsToLower m.bin.data = jsToLower (jsTrim "01".data) :=
  ⟨by decide, by decide,
   getMaterials_rack_bin_search
     ⟨[⟨"TRIM-001", 100, "A1", "01", 1⟩, ⟨"TRIM-002", 50, "B2", "15", 2⟩], [], []⟩
     "A1" "01" (by decide) (by decide)⟩

end Inventory
